import Mathlib

/-!
Verification of the updater-script rewriting engine implemented in
src/libmbp/autopatchers/standardpatcher.cpp (class StandardPatcher).

Lines of a script are modelled as List Char, a script as the list of its
lines (boost::split on newline keeps empty tokens; boost::join rejoins
with the same separator).  The MBP_regex patterns used by the source are
fixed regular expressions built from literals, the wildcard dot, and
starred character classes; they are transcribed item by item into the
RItem list type below, and MBP_regex_search is the standard
"match somewhere" semantics (patterns anchored with a leading caret in
the source are matched from the start of the line, which rmatch does;
unanchored patterns go through rsearch, which tries every start
position).  A regex dot is transcribed as RItem.anyc, a character class
as RItem.star with the class predicate, and the trailing ".*$" of the
anchored patterns is dropped because rmatch already accepts any
remaining suffix once the pattern list is exhausted.  The alternation
(ro.product.device|ro.build.product) at the end of the device-check
pattern is expanded into two patterns combined with or, which has the
same search semantics.
-/

namespace StandardPatcher

/-- The \s character class of the regex engine used per line. -/
def isSpaceCh (c : Char) : Bool :=
  c == ' ' || c == '\t' || c == '\n' || c == '\r' || c == '\x0b' || c == '\x0c'

/-- std::string::find(needle) != npos, i.e. substring containment. -/
def containsSub (needle : List Char) : List Char → Bool
  | [] => needle.isPrefixOf []
  | a :: t => needle.isPrefixOf (a :: t) || containsSub needle t

/-- One item of a transcribed regular expression: a literal character,
the wildcard dot, or a starred character class. -/
inductive RItem where
  | lit : Char → RItem
  | anyc : RItem
  | star : (Char → Bool) → RItem

/-- Backtracking loop for a starred class: try the continuation at the
current position, or consume one class character and continue. -/
def starAux (p : Char → Bool) (k : List Char → Bool) : List Char → Bool
  | [] => k []
  | a :: t => k (a :: t) || (p a && starAux p k t)

/-- Does the item list match a prefix of the character list?  This is
regex search semantics for the source's caret-anchored patterns, whose
trailing ".*$" is dropped. -/
def rmatch : List RItem → List Char → Bool
  | [], _ => true
  | RItem.lit c :: is, [] => false
  | RItem.lit c :: is, a :: t => a == c && rmatch is t
  | RItem.anyc :: is, [] => false
  | RItem.anyc :: is, _ :: t => rmatch is t
  | RItem.star p :: is, l => starAux p (fun r => rmatch is r) l

/-- Unanchored regex search: try a match at every start position. -/
def rsearch (p : List RItem) : List Char → Bool
  | [] => rmatch p []
  | a :: t => rmatch p (a :: t) || rsearch p t

/-- Literal run of a pattern. -/
def litsOf (s : String) : List RItem := s.data.map RItem.lit

/-- Starred \s class. -/
def wsP : RItem := RItem.star isSpaceCh

/-- Starred dot (the .* of the device-check pattern). -/
def anyP : RItem := RItem.star (fun _ => true)

/-- Starred class [^"] . -/
def notQuoteP : RItem := RItem.star (fun c => !(c == '"'))

/-- Starred class [^",] . -/
def notQuoteCommaP : RItem := RItem.star (fun c => !(c == '"' || c == ','))

/-- Starred class [^)] . -/
def notCloseParenP : RItem := RItem.star (fun c => !(c == ')'))

/-! Patterns of replaceMountLines (source lines 158-162). -/

/-- re1: ^\s*mount\s*\(.*$ -/
def reMount1 : List RItem := wsP :: litsOf ("mount") ++ [wsP, RItem.lit '(']

/-- re2: ^\s*run_program\s*\(\s*"[^"]*busybox"\s*,\s*"mount".*$ -/
def reMount2 : List RItem :=
  wsP :: litsOf ("run_program") ++ [wsP, RItem.lit '(', wsP, RItem.lit '"', notQuoteP] ++
    litsOf ("busybox\"") ++ [wsP, RItem.lit ',', wsP] ++ litsOf ("\"mount\"")

/-- re3: ^\s*run_program\s*\(\s*"[^",]*/mount".*$ -/
def reMount3 : List RItem :=
  wsP :: litsOf ("run_program") ++ [wsP, RItem.lit '(', wsP, RItem.lit '"', notQuoteCommaP] ++
    litsOf ("/mount\"")

/-! Patterns of replaceUnmountLines (source lines 207-209). -/

/-- re1: ^\s*unmount\s*\(.*$ -/
def reUnmount1 : List RItem := wsP :: litsOf ("unmount") ++ [wsP, RItem.lit '(']

/-- re2: ^\s*run_program\s*\(\s*"[^"]*busybox"\s*,\s*"umount".*$ -/
def reUnmount2 : List RItem :=
  wsP :: litsOf ("run_program") ++ [wsP, RItem.lit '(', wsP, RItem.lit '"', notQuoteP] ++
    litsOf ("busybox\"") ++ [wsP, RItem.lit ',', wsP] ++ litsOf ("\"umount\"")

/-! Patterns of replaceFormatLines (source lines 256-284). -/

/-- ^\s*format\s*\(.*$ -/
def reFormat1 : List RItem := wsP :: litsOf ("format") ++ [wsP, RItem.lit '(']

/-- delete_recursive\s*\([^\)]*"/system"  (searched unanchored) -/
def reDelRecSystem : List RItem :=
  litsOf ("delete_recursive") ++ [wsP, RItem.lit '(', notCloseParenP] ++ litsOf ("\"/system\"")

/-- delete_recursive\s*\([^\)]*"/cache"  (searched unanchored) -/
def reDelRecCache : List RItem :=
  litsOf ("delete_recursive") ++ [wsP, RItem.lit '(', notCloseParenP] ++ litsOf ("\"/cache\"")

/-- ^\s*run_program\s*\(\s*"[^",]*/format.sh".*$  (the dot is a regex
wildcard and is transcribed as RItem.anyc) -/
def reFormatSh : List RItem :=
  wsP :: litsOf ("run_program") ++ [wsP, RItem.lit '(', wsP, RItem.lit '"', notQuoteCommaP] ++
    litsOf ("/format") ++ [RItem.anyc] ++ litsOf ("sh\"")

/-! Pattern of removeDeviceChecks (source line 135), with the trailing
alternation expanded into two patterns. -/

/-- The part of the device-check pattern after ^\s*assert\s*\( for the
ro.product.device alternative: .*getprop\s*\(.*ro.product.device with
every dot a wildcard. -/
def devTailA : List RItem :=
  anyP :: (litsOf ("getprop") ++ ([wsP, RItem.lit '(', anyP] ++
    (litsOf ("ro") ++ ([RItem.anyc] ++ (litsOf ("product") ++
      ([RItem.anyc] ++ litsOf ("device")))))))

/-- Same for the ro.build.product alternative. -/
def devTailB : List RItem :=
  anyP :: (litsOf ("getprop") ++ ([wsP, RItem.lit '(', anyP] ++
    (litsOf ("ro") ++ ([RItem.anyc] ++ (litsOf ("build") ++
      ([RItem.anyc] ++ litsOf ("product")))))))

/-- ^\s*assert\s*\(.*getprop\s*\(.*ro.product.device  (dots wildcard) -/
def reDevCheckA : List RItem :=
  wsP :: (litsOf ("assert") ++ (wsP :: (RItem.lit '(' :: devTailA)))

/-- ^\s*assert\s*\(.*getprop\s*\(.*ro.build.product  (dots wildcard) -/
def reDevCheckB : List RItem :=
  wsP :: (litsOf ("assert") ++ (wsP :: (RItem.lit '(' :: devTailB)))

/-- The FileInfo's device, reduced to the three partition lookups the
source performs: device->partition("system" | "cache" | "data").  An
unmapped partition is the empty string. -/
structure Device where
  pSystem : List Char
  pCache : List Char
  pData : List Char

/-! Replacement templates (source lines 47-52). -/

/-- run_program("/update-binary-tool", "mount", "%1%"};  -/
def Mount : List Char :=
  ("run_program(\"/update-binary-tool\", \"mount\", \"%1%\"\x7d;").data

/-- run_program("/update-binary-tool", "unmount", "%1%"};  -/
def Unmount : List Char :=
  ("run_program(\"/update-binary-tool\", \"unmount\", \"%1%\"\x7d;").data

/-- run_program("/update-binary-tool", "format", "%1%"};  -/
def Format : List Char :=
  ("run_program(\"/update-binary-tool\", \"format\", \"%1%\"\x7d;").data

/-- (boost::format(tmpl) % arg).str(): replace each %1% placeholder of
the template by the argument. -/
def substPct (arg : List Char) : List Char → List Char
  | '%' :: '1' :: '%' :: t => arg ++ substPct arg t
  | c :: t => c :: substPct arg t
  | [] => []

/-! The partition classifier shared by the three statement rewriters
(source lines 172-178, 218-224, 257-263). -/

/-- line.find("system") != npos || (!pSystem.empty() && line.find(pSystem) != npos) -/
def isSystemLine (d : Device) (l : List Char) : Bool :=
  containsSub (("system").data) l || (!d.pSystem.isEmpty && containsSub d.pSystem l)

/-- line.find("cache") != npos || (!pCache.empty() && line.find(pCache) != npos) -/
def isCacheLine (d : Device) (l : List Char) : Bool :=
  containsSub (("cache").data) l || (!d.pCache.isEmpty && containsSub d.pCache l)

/-- line.find("data") != npos || line.find("userdata") != npos
|| (!pData.empty() && line.find(pData) != npos) -/
def isDataLine (d : Device) (l : List Char) : Bool :=
  containsSub (("data").data) l || containsSub (("userdata").data) l ||
    (!d.pData.isEmpty && containsSub d.pData l)

/-! The three statement rewriters.  The source iterates the line vector
and, on a hit, erases the line and inserts the replacement at the same
position; per line this is exactly a map with a replacement function. -/

/-- isMountLine of replaceMountLines (source lines 167-169). -/
def isMountLine (l : List Char) : Bool :=
  rmatch reMount1 l || rmatch reMount2 l || rmatch reMount3 l

/-- Body of the replaceMountLines loop for one line (source lines 171-190). -/
def replaceMountLine (d : Device) (l : List Char) : List Char :=
  if isMountLine l then
    if isSystemLine d l then substPct (("/system").data) Mount
    else if isCacheLine d l then substPct (("/cache").data) Mount
    else if isDataLine d l then substPct (("/data").data) Mount
    else l
  else l

/-- StandardPatcher::replaceMountLines. -/
def replaceMountLines (lines : List (List Char)) (d : Device) : List (List Char) :=
  lines.map (replaceMountLine d)

/-- isUnmountLine of replaceUnmountLines (source lines 214-215). -/
def isUnmountLine (l : List Char) : Bool :=
  rmatch reUnmount1 l || rmatch reUnmount2 l

/-- Body of the replaceUnmountLines loop for one line (source lines 217-236). -/
def replaceUnmountLine (d : Device) (l : List Char) : List Char :=
  if isUnmountLine l then
    if isSystemLine d l then substPct (("/system").data) Unmount
    else if isCacheLine d l then substPct (("/cache").data) Unmount
    else if isDataLine d l then substPct (("/data").data) Unmount
    else l
  else l

/-- StandardPatcher::replaceUnmountLines. -/
def replaceUnmountLines (lines : List (List Char)) (d : Device) : List (List Char) :=
  lines.map (replaceUnmountLine d)

/-- Body of the replaceFormatLines loop for one line: the if/else-if
chain of source lines 256-287 (format( classification first, then the
two delete_recursive rules, then the format.sh rule). -/
def replaceFormatLine (d : Device) (l : List Char) : List Char :=
  if rmatch reFormat1 l then
    if isSystemLine d l then substPct (("/system").data) Format
    else if isCacheLine d l then substPct (("/cache").data) Format
    else if isDataLine d l then substPct (("/data").data) Format
    else l
  else if rsearch reDelRecSystem l then substPct (("/system").data) Format
  else if rsearch reDelRecCache l then substPct (("/cache").data) Format
  else if rmatch reFormatSh l then substPct (("/data").data) Format
  else l

/-- StandardPatcher::replaceFormatLines. -/
def replaceFormatLines (lines : List (List Char)) (d : Device) : List (List Char) :=
  lines.map (replaceFormatLine d)

/-- Any of the four qualifying patterns of the format pass. -/
def isFormatLine (l : List Char) : Bool :=
  rmatch reFormat1 l || rsearch reDelRecSystem l || rsearch reDelRecCache l ||
    rmatch reFormatSh l

/-! The assertion stripper (removeDeviceChecks, source lines 133-143). -/

/-- MBP_regex_search of the device-check pattern on one line. -/
def isDeviceCheckLine (l : List Char) : Bool :=
  rmatch reDevCheckA l || rmatch reDevCheckB l

/-- The literal run of the pattern ^\s*assert\s*\( . -/
def assertLit : List Char := ("assert").data

/-- Split a line into the portion matched by ^(\s*assert\s*\() and the
remainder; none when the line does not start that way.  The starred
whitespace runs are maximal and the match is unique because both
characters following them, the letter a and the open paren, are
non-space. -/
def stripAssertOpen (l : List Char) : Option (List Char × List Char) :=
  if assertLit.isPrefixOf (l.dropWhile isSpaceCh) then
    match ((l.dropWhile isSpaceCh).drop assertLit.length).dropWhile isSpaceCh with
    | '(' :: rest =>
        some (l.takeWhile isSpaceCh ++ assertLit ++
          (((l.dropWhile isSpaceCh).drop assertLit.length).takeWhile isSpaceCh) ++ ['('], rest)
    | _ => none
  else none

/-- The inserted disjunct "true" == "true" ||  (with trailing space). -/
def trueDisj : List Char := ("\"true\" == \"true\" || ").data

/-- MBP_regex_replace of ^(\s*assert\s*\() by \1"true" == "true" ||  . -/
def assertInsert (l : List Char) : List Char :=
  match stripAssertOpen l with
  | some pr => pr.1 ++ trueDisj ++ pr.2
  | none => l

/-- Body of the removeDeviceChecks loop for one line (source lines 137-142). -/
def removeDeviceChecksLine (l : List Char) : List Char :=
  if isDeviceCheckLine l then assertInsert l else l

/-- StandardPatcher::removeDeviceChecks. -/
def removeDeviceChecks (lines : List (List Char)) : List (List Char) :=
  lines.map removeDeviceChecksLine

/-! Driver: the in-memory core of StandardPatcher::patchFiles
(source lines 105-121); file reading and writing happen outside. -/

/-- boost::split(lines, contents, boost::is_any_of("\n")): split on every
newline, keeping empty tokens. -/
def splitNl : List Char → List (List Char)
  | [] => [[]]
  | c :: t =>
      if c == '\n' then [] :: splitNl t
      else
        match splitNl t with
        | [] => [[c]]
        | h :: r => (c :: h) :: r

/-- boost::join(lines, "\n"). -/
def joinNl : List (List Char) → List Char
  | [] => []
  | [l] => l
  | l :: l2 :: ls => l ++ '\n' :: joinNl (l2 :: ls)

/-- The conditional assertion-stripping of patchFiles (source lines
114-118): the pass runs exactly when the patch-info deviceCheck decision
for the resolved key is false. -/
def gatedRemoveDeviceChecks (deviceCheck : Bool) (lines : List (List Char)) :
    List (List Char) :=
  if !deviceCheck then removeDeviceChecks lines else lines

/-- The four passes of patchFiles over the line sequence, in source
order (source lines 109-118). -/
def patchLines (lines : List (List Char)) (d : Device) (deviceCheck : Bool) :
    List (List Char) :=
  gatedRemoveDeviceChecks deviceCheck
    (replaceFormatLines (replaceUnmountLines (replaceMountLines lines d) d) d)

/-- The full in-memory rewrite of patchFiles: split the contents on
newlines, run the passes, rejoin with newlines (source lines 105-120). -/
def patchUpdaterScript (content : List Char) (d : Device) (deviceCheck : Bool) :
    List Char :=
  joinNl (patchLines (splitNl content) d deviceCheck)

/-- Modelled from the spec: the PatcherError class is declared outside
the given sources; per the spec, its default-constructed value is the
"no error" value, which is all this component ever reports. -/
structure PatcherError where
  hasError : Bool

/-- Modelled from the spec: PatcherError() — the default, no-error value. -/
def defaultPatcherError : PatcherError := ⟨false⟩

/-- The component state of StandardPatcher: its Impl holds the two
read-only collaborator handles set at construction and never mutated;
they are abstracted as opaque identifiers. -/
structure StandardPatcherImpl where
  pc : Nat
  info : Nat

/-- StandardPatcher::error (source lines 74-77): return PatcherError(). -/
def standardPatcherError (s : StandardPatcherImpl) : PatcherError :=
  defaultPatcherError

/-- The three statement rewriters composed on one line, in pass order. -/
def threePassesLine (d : Device) (l : List Char) : List Char :=
  replaceFormatLine d (replaceUnmountLine d (replaceMountLine d l))

/-- The three statement rewriters composed on the line list, in pass
order (the first three calls of patchFiles). -/
def threePasses (lines : List (List Char)) (d : Device) : List (List Char) :=
  replaceFormatLines (replaceUnmountLines (replaceMountLines lines d) d) d

/-- Every replacement line the three statement rewriters can emit: the
three templates instantiated with /system, /cache and /data. -/
def templateList : List (List Char) :=
  [substPct (("/system").data) Mount, substPct (("/cache").data) Mount,
   substPct (("/data").data) Mount,
   substPct (("/system").data) Unmount, substPct (("/cache").data) Unmount,
   substPct (("/data").data) Unmount,
   substPct (("/system").data) Format, substPct (("/cache").data) Format,
   substPct (("/data").data) Format]

/-! Concrete devices and script lines used as witnesses and as
counterexample inputs. -/

/-- A device with no partition paths mapped. -/
def emptyDevice : Device := ⟨[], [], []⟩

/-- A device whose raw system partition path is the string busybox. -/
def busyboxDevice : Device := ⟨("busybox").data, [], []⟩

/-- A mount line containing both the substring system and the substring
data. -/
def exMountLine : List Char := ("mount(\"ext4\", \"/dev/system/data\");").data

/-- The unmount example line of the spec. -/
def exUmountCacheLine : List Char :=
  ("run_program(\"/sbin/busybox\", \"umount\", \"/cache\");").data

/-- A device-check assertion line. -/
def exDevCheckLine : List Char :=
  ("assert(getprop(\"ro.product.device\") == \"i9100\");").data

/-- A delete_recursive line naming both /system and /cache. -/
def exDelRecBoth : List Char := ("delete_recursive(\"/system\", \"/cache\");").data

/-- A delete_recursive line naming /system. -/
def exDelRecSystemLine : List Char := ("delete_recursive(\"/system\");").data

/-- A delete_recursive line naming /cache. -/
def exDelRecCacheLine : List Char := ("delete_recursive(\"/cache\");").data

/-- A legacy format.sh invocation line. -/
def exFormatShLine : List Char := ("run_program(\"/tmp/format.sh\");").data

/-- A line qualifying under no pass. -/
def exPlainLine : List Char := ("ui_print(\"hello\");").data

/-- A mount line the classifier places in no partition. -/
def exMountEfsLine : List Char := ("mount(\"/efs\");").data

/-- An unmount line the classifier places in no partition. -/
def exUnmountEfsLine : List Char := ("unmount(\"/efs\");").data

/-- A two-line script with no qualifying line in any pass. -/
def exScript : List Char := ("ui_print(\"hi\");\nshow_progress(0.200000, 0);").data

/-! ### Helper lemmas about the matcher -/

theorem rmatch_star_eq (p : Char → Bool) (is : List RItem) (l : List Char) :
    rmatch (RItem.star p :: is) l = starAux p (fun r => rmatch is r) l := rfl

theorem starAux_cons (p : Char → Bool) (k : List Char → Bool) (a : Char) (t : List Char) :
    starAux p k (a :: t) = (k (a :: t) || (p a && starAux p k t)) := rfl

/-- A starred class followed by a literal outside the class matches
exactly when the literal-led remainder matches after the maximal class
run. -/
theorem starAux_lit (p : Char → Bool) (c : Char) (is : List RItem)
    (hc : p c = false) :
    ∀ l : List Char,
      starAux p (fun r => rmatch (RItem.lit c :: is) r) l =
        rmatch (RItem.lit c :: is) (l.dropWhile p) := by
  intro l
  induction l with
  | nil => rfl
  | cons a t ih =>
    rw [starAux_cons, List.dropWhile_cons]
    by_cases hpa : p a = true
    · have hac : (a == c) = false := by
        cases hbeq : a == c
        · rfl
        · rw [eq_of_beq hbeq] at hpa
          rw [hc] at hpa
          exact hpa.symm
      simp only [hpa, if_pos, rmatch, hac, Bool.false_and, Bool.false_or, Bool.true_and]
      exact ih
    · have hpa2 : p a = false := by
        cases hq : p a
        · rfl
        · exact absurd hq hpa
      simp [hpa2]

theorem rmatch_star_lit (p : Char → Bool) (c : Char) (is : List RItem) (l : List Char)
    (hc : p c = false) :
    rmatch (RItem.star p :: (RItem.lit c :: is)) l =
      rmatch (RItem.lit c :: is) (l.dropWhile p) := by
  rw [rmatch_star_eq]
  exact starAux_lit p c is hc l

/-- A literal item consumes exactly its character. -/
theorem rmatch_lit_decomp (c : Char) (is : List RItem) (l : List Char)
    (h : rmatch (RItem.lit c :: is) l = true) :
    ∃ t, l = c :: t ∧ rmatch is t = true := by
  cases l with
  | nil => simp [rmatch] at h
  | cons a t =>
    rw [show rmatch (RItem.lit c :: is) (a :: t) = (a == c && rmatch is t) from rfl] at h
    obtain ⟨h1, h2⟩ := Bool.and_eq_true (a == c) (rmatch is t) ▸ h
    exact ⟨t, by rw [eq_of_beq h1], h2⟩

/-- A run of literal items consumes exactly those characters. -/
theorem rmatch_lits_decomp (cs : List Char) (is : List RItem) (l : List Char)
    (h : rmatch (cs.map RItem.lit ++ is) l = true) :
    ∃ r, l = cs ++ r ∧ rmatch is r = true := by
  induction cs generalizing l with
  | nil => exact ⟨l, rfl, h⟩
  | cons c cs ih =>
    rw [show (c :: cs).map RItem.lit ++ is = RItem.lit c :: (cs.map RItem.lit ++ is)
      from rfl] at h
    obtain ⟨t, hl, h2⟩ := rmatch_lit_decomp c (cs.map RItem.lit ++ is) l h
    obtain ⟨r, ht, hr⟩ := ih t h2
    exact ⟨r, by rw [hl, ht]; rfl, hr⟩

theorem rmatch_lits_bare (cs : List Char) (l : List Char)
    (h : rmatch (cs.map RItem.lit) l = true) : ∃ r, l = cs ++ r := by
  have h2 : rmatch (cs.map RItem.lit ++ []) l = true := by
    rw [List.append_nil]; exact h
  obtain ⟨r, hr, _⟩ := rmatch_lits_decomp cs [] l h2
  exact ⟨r, hr⟩

/-- Converse: prepend a run of literal items onto a match. -/
theorem rmatch_lits_intro (cs : List Char) (is : List RItem) (r : List Char)
    (h : rmatch is r = true) :
    rmatch (cs.map RItem.lit ++ is) (cs ++ r) = true := by
  induction cs with
  | nil => exact h
  | cons c cs ih =>
    rw [show (c :: cs).map RItem.lit ++ is = RItem.lit c :: (cs.map RItem.lit ++ is)
      from rfl, show (c :: cs) ++ r = c :: (cs ++ r) from rfl]
    rw [show rmatch (RItem.lit c :: (cs.map RItem.lit ++ is)) (c :: (cs ++ r)) =
      (c == c && rmatch (cs.map RItem.lit ++ is) (cs ++ r)) from rfl]
    simp [ih]

/-- The continuation of a starred class may fire immediately. -/
theorem starAux_of_k (p : Char → Bool) (k : List Char → Bool) (l : List Char)
    (h : k l = true) : starAux p k l = true := by
  cases l with
  | nil => exact h
  | cons a t => rw [starAux_cons, h]; rfl

/-- A starred class absorbs any run of class characters in front. -/
theorem starAux_prepend (p : Char → Bool) (k : List Char → Bool) (w l : List Char)
    (hw : ∀ c ∈ w, p c = true) (h : starAux p k l = true) :
    starAux p k (w ++ l) = true := by
  induction w with
  | nil => exact h
  | cons a t ih =>
    rw [show (a :: t) ++ l = a :: (t ++ l) from rfl, starAux_cons]
    have ha : p a = true := hw a (List.mem_cons_self a t)
    have ht : starAux p k (t ++ l) = true := ih (fun c hc => hw c (List.mem_cons_of_mem a hc))
    rw [ha, ht]
    simp

theorem rmatch_star_weaken (p : Char → Bool) (is : List RItem) (w l : List Char)
    (hw : ∀ c ∈ w, p c = true) (h : rmatch (RItem.star p :: is) l = true) :
    rmatch (RItem.star p :: is) (w ++ l) = true := by
  rw [rmatch_star_eq] at *
  exact starAux_prepend p _ w l hw h

theorem rmatch_star_intro (p : Char → Bool) (is : List RItem) (w l : List Char)
    (hw : ∀ c ∈ w, p c = true) (h : rmatch is l = true) :
    rmatch (RItem.star p :: is) (w ++ l) = true := by
  apply rmatch_star_weaken p is w l hw
  rw [rmatch_star_eq]
  exact starAux_of_k p _ l h

/-- Whatever a starred class consumes, the continuation fires at some
suffix. -/
theorem starAux_drop (p : Char → Bool) (k : List Char → Bool) (l : List Char)
    (h : starAux p k l = true) : ∃ n, k (l.drop n) = true := by
  induction l with
  | nil => exact ⟨0, h⟩
  | cons a t ih =>
    rw [starAux_cons] at h
    cases hor : k (a :: t) with
    | true => exact ⟨0, hor⟩
    | false =>
      rw [hor, Bool.false_or] at h
      obtain ⟨_, h2⟩ := Bool.and_eq_true (p a) (starAux p k t) ▸ h
      obtain ⟨n, hn⟩ := ih h2
      exact ⟨n + 1, by rw [List.drop_succ_cons]; exact hn⟩

/-- If a concatenated pattern matches, its second part matches at some
suffix. -/
theorem rmatch_append_drop (p1 p2 : List RItem) (l : List Char)
    (h : rmatch (p1 ++ p2) l = true) : ∃ n, rmatch p2 (l.drop n) = true := by
  induction p1 generalizing l with
  | nil => exact ⟨0, h⟩
  | cons i p ih =>
    cases i with
    | lit c =>
      rw [List.cons_append] at h
      obtain ⟨t, hl, h2⟩ := rmatch_lit_decomp c (p ++ p2) l h
      obtain ⟨n, hn⟩ := ih t h2
      exact ⟨n + 1, by rw [hl, List.drop_succ_cons]; exact hn⟩
    | anyc =>
      rw [List.cons_append] at h
      cases l with
      | nil => simp [rmatch] at h
      | cons a t =>
        rw [show rmatch (RItem.anyc :: (p ++ p2)) (a :: t) = rmatch (p ++ p2) t
          from rfl] at h
        obtain ⟨n, hn⟩ := ih t h
        exact ⟨n + 1, by rw [List.drop_succ_cons]; exact hn⟩
    | star q =>
      rw [List.cons_append, rmatch_star_eq] at h
      obtain ⟨m, hm⟩ := starAux_drop q _ l h
      obtain ⟨n, hn⟩ := ih (l.drop m) hm
      rw [List.drop_drop] at hn
      exact ⟨_, hn⟩

/-- Unanchored search succeeds exactly at some start position. -/
theorem rsearch_drop (p : List RItem) (l : List Char)
    (h : rsearch p l = true) : ∃ n, rmatch p (l.drop n) = true := by
  induction l with
  | nil => exact ⟨0, h⟩
  | cons a t ih =>
    rw [show rsearch p (a :: t) = (rmatch p (a :: t) || rsearch p t) from rfl] at h
    cases hor : rmatch p (a :: t) with
    | true => exact ⟨0, hor⟩
    | false =>
      rw [hor, Bool.false_or] at h
      obtain ⟨n, hn⟩ := ih h
      exact ⟨n + 1, by rw [List.drop_succ_cons]; exact hn⟩

/-! ### Helper lemmas about substring containment -/

theorem containsSub_nil_eq (needle : List Char) :
    containsSub needle [] = needle.isPrefixOf [] := rfl

theorem containsSub_cons_eq (needle : List Char) (a : Char) (t : List Char) :
    containsSub needle (a :: t) =
      (needle.isPrefixOf (a :: t) || containsSub needle t) := rfl

theorem isPrefixOf_append_self (cs r : List Char) : cs.isPrefixOf (cs ++ r) = true := by
  induction cs with
  | nil => simp [List.isPrefixOf]
  | cons c cs ih =>
    rw [show (c :: cs) ++ r = c :: (cs ++ r) from rfl]
    rw [show (c :: cs).isPrefixOf (c :: (cs ++ r)) = (c == c && cs.isPrefixOf (cs ++ r))
      from rfl]
    simp [ih]

theorem containsSub_of_isPrefixOf (cs l : List Char)
    (h : cs.isPrefixOf l = true) : containsSub cs l = true := by
  cases l with
  | nil => exact h
  | cons a t => rw [containsSub_cons_eq, h]; rfl

theorem containsSub_cons_of (cs : List Char) (a : Char) (t : List Char)
    (h : containsSub cs t = true) : containsSub cs (a :: t) = true := by
  rw [containsSub_cons_eq, h]
  simp

/-- Containment of the middle part of a concatenation. -/
theorem containsSub_middle (a b c : List Char) :
    containsSub b (a ++ (b ++ c)) = true := by
  induction a with
  | nil => exact containsSub_of_isPrefixOf b (b ++ c) (isPrefixOf_append_self b c)
  | cons x a ih =>
    rw [show (x :: a) ++ (b ++ c) = x :: (a ++ (b ++ c)) from rfl]
    exact containsSub_cons_of _ x _ ih

theorem containsSub_of_drop (cs : List Char) (n : Nat) (l : List Char)
    (h : containsSub cs (l.drop n) = true) : containsSub cs l = true := by
  induction n generalizing l with
  | zero => exact h
  | succ n ih =>
    cases l with
    | nil => exact h
    | cons a t =>
      rw [List.drop_succ_cons] at h
      exact containsSub_cons_of cs a t (ih t h)

/-! ### Helper lemmas about takeWhile and dropWhile -/

theorem dropWhile_all_append (p : Char → Bool) (w r : List Char)
    (hw : ∀ c ∈ w, p c = true) :
    List.dropWhile p (w ++ r) = List.dropWhile p r := by
  induction w with
  | nil => rfl
  | cons a t ih =>
    rw [show (a :: t) ++ r = a :: (t ++ r) from rfl, List.dropWhile_cons]
    rw [hw a (List.mem_cons_self a t)]
    exact ih (fun c hc => hw c (List.mem_cons_of_mem a hc))

theorem takeWhile_all_append (p : Char → Bool) (w r : List Char)
    (hw : ∀ c ∈ w, p c = true) :
    List.takeWhile p (w ++ r) = w ++ List.takeWhile p r := by
  induction w with
  | nil => rfl
  | cons a t ih =>
    rw [show (a :: t) ++ r = a :: (t ++ r) from rfl, List.takeWhile_cons]
    rw [hw a (List.mem_cons_self a t)]
    rw [ih (fun c hc => hw c (List.mem_cons_of_mem a hc))]
    simp

/-! ### Helper lemmas about maps over line lists -/

theorem mapSelf {α : Type} (f : α → α) (xs : List α)
    (h : ∀ x ∈ xs, f x = x) : List.map f xs = xs := by
  induction xs with
  | nil => rfl
  | cons a t ih =>
    rw [List.map_cons, h a (List.mem_cons_self a t),
      ih (fun x hx => h x (List.mem_cons_of_mem a hx))]

theorem mapCongr {α β : Type} (f g : α → β) (xs : List α)
    (h : ∀ x ∈ xs, f x = g x) : List.map f xs = List.map g xs := by
  induction xs with
  | nil => rfl
  | cons a t ih =>
    rw [List.map_cons, List.map_cons, h a (List.mem_cons_self a t),
      ih (fun x hx => h x (List.mem_cons_of_mem a hx))]

/-! ### Split and join -/

theorem splitNl_ne_nil (s : List Char) : splitNl s ≠ [] := by
  cases s with
  | nil => simp [splitNl]
  | cons c t =>
    rw [show splitNl (c :: t) = if c == '\n' then [] :: splitNl t
      else match splitNl t with
        | [] => [[c]]
        | h :: r => (c :: h) :: r from rfl]
    by_cases h : (c == '\n') = true
    · simp [h]
    · simp only [h]
      cases hs : splitNl t <;> simp [hs]

theorem joinNl_splitNl (s : List Char) : joinNl (splitNl s) = s := by
  induction s with
  | nil => rfl
  | cons c t ih =>
    obtain ⟨h1, r, hs⟩ := List.exists_cons_of_ne_nil (splitNl_ne_nil t)
    rw [show splitNl (c :: t) = if c == '\n' then [] :: splitNl t
      else match splitNl t with
        | [] => [[c]]
        | h :: r => (c :: h) :: r from rfl]
    by_cases h : (c == '\n') = true
    · rw [if_pos h, hs]
      rw [show joinNl ([] :: h1 :: r) = [] ++ '\n' :: joinNl (h1 :: r) from rfl]
      rw [hs] at ih
      rw [List.nil_append, ih, eq_of_beq h]
    · rw [if_neg h, hs]
      cases r with
      | nil =>
        rw [hs] at ih
        rw [show joinNl [c :: h1] = c :: h1 from rfl]
        rw [show joinNl [h1] = h1 from rfl] at ih
        rw [ih]
      | cons r1 rs =>
        rw [hs] at ih
        rw [show joinNl ((c :: h1) :: r1 :: rs) = (c :: h1) ++ '\n' :: joinNl (r1 :: rs)
          from rfl]
        rw [show joinNl (h1 :: r1 :: rs) = h1 ++ '\n' :: joinNl (r1 :: rs) from rfl] at ih
        rw [show (c :: h1) ++ '\n' :: joinNl (r1 :: rs) =
          c :: (h1 ++ '\n' :: joinNl (r1 :: rs)) from rfl, ih]

/-! ### Structure of the device-check pattern -/

/-- A line matched by a device-check pattern decomposes into leading
whitespace, the word assert, whitespace, an open paren, and a rest
matching the pattern's tail. -/
theorem assertFront_decomp (tail : List RItem) (l : List Char)
    (h : rmatch (wsP :: (litsOf ("assert") ++ (wsP :: (RItem.lit '(' :: tail)))) l = true) :
    ∃ w1 w2 rest, l = w1 ++ (assertLit ++ (w2 ++ '(' :: rest)) ∧
      (∀ c ∈ w1, isSpaceCh c = true) ∧ (∀ c ∈ w2, isSpaceCh c = true) ∧
      rmatch tail rest = true := by
  rw [show (wsP :: (litsOf ("assert") ++ (wsP :: (RItem.lit '(' :: tail)))) =
      (RItem.star isSpaceCh :: (RItem.lit 'a' ::
        (litsOf ("ssert") ++ (wsP :: (RItem.lit '(' :: tail))))) from rfl] at h
  rw [rmatch_star_lit isSpaceCh 'a' _ l (by decide)] at h
  have h2 : rmatch (assertLit.map RItem.lit ++ (wsP :: (RItem.lit '(' :: tail)))
      (l.dropWhile isSpaceCh) = true := h
  obtain ⟨r1, hr1, h3⟩ := rmatch_lits_decomp assertLit _ _ h2
  rw [show (wsP :: (RItem.lit '(' :: tail)) =
      (RItem.star isSpaceCh :: (RItem.lit '(' :: tail)) from rfl,
    rmatch_star_lit isSpaceCh '(' tail r1 (by decide)] at h3
  obtain ⟨rest, hrest, h4⟩ := rmatch_lit_decomp '(' tail _ h3
  refine ⟨l.takeWhile isSpaceCh, r1.takeWhile isSpaceCh, rest, ?_, ?_, ?_, h4⟩
  · conv_lhs => rw [← List.takeWhile_append_dropWhile (p := isSpaceCh) (l := l)]
    rw [hr1]
    congr 1
    congr 1
    conv_lhs => rw [← List.takeWhile_append_dropWhile (p := isSpaceCh) (l := r1)]
    rw [hrest]
  · exact fun c hc => List.mem_takeWhile_imp hc
  · exact fun c hc => List.mem_takeWhile_imp hc

/-- Converse of the decomposition. -/
theorem assertFront_intro (tail : List RItem) (w1 w2 rest : List Char)
    (h1 : ∀ c ∈ w1, isSpaceCh c = true) (h2 : ∀ c ∈ w2, isSpaceCh c = true)
    (ht : rmatch tail rest = true) :
    rmatch (wsP :: (litsOf ("assert") ++ (wsP :: (RItem.lit '(' :: tail))))
      (w1 ++ (assertLit ++ (w2 ++ '(' :: rest))) = true := by
  have s1 : rmatch (RItem.lit '(' :: tail) ('(' :: rest) = true := by
    rw [show rmatch (RItem.lit '(' :: tail) ('(' :: rest) =
      (('(' == '(') && rmatch tail rest) from rfl]
    simp [ht]
  have s2 : rmatch (wsP :: (RItem.lit '(' :: tail)) (w2 ++ '(' :: rest) = true :=
    rmatch_star_intro isSpaceCh _ w2 _ h2 s1
  have s3 : rmatch (assertLit.map RItem.lit ++ (wsP :: (RItem.lit '(' :: tail)))
      (assertLit ++ (w2 ++ '(' :: rest)) = true :=
    rmatch_lits_intro assertLit _ _ s2
  exact rmatch_star_intro isSpaceCh _ w1 _ h1 s3

/-- What ^(\s*assert\s*\() captures on a line of the decomposed shape. -/
theorem stripAssertOpen_spec (w1 w2 rest : List Char)
    (h1 : ∀ c ∈ w1, isSpaceCh c = true) (h2 : ∀ c ∈ w2, isSpaceCh c = true) :
    stripAssertOpen (w1 ++ (assertLit ++ (w2 ++ '(' :: rest))) =
      some (w1 ++ (assertLit ++ (w2 ++ ['('])), rest) := by
  have hd1 : (w1 ++ (assertLit ++ (w2 ++ '(' :: rest))).dropWhile isSpaceCh =
      assertLit ++ (w2 ++ '(' :: rest) := by
    rw [dropWhile_all_append isSpaceCh w1 _ h1]
    rw [show assertLit ++ (w2 ++ '(' :: rest) = 'a' :: (("ssert").data ++ (w2 ++ '(' :: rest))
      from rfl]
    rw [List.dropWhile_cons]
    simp [isSpaceCh]
  have ht1 : (w1 ++ (assertLit ++ (w2 ++ '(' :: rest))).takeWhile isSpaceCh = w1 := by
    rw [takeWhile_all_append isSpaceCh w1 _ h1]
    rw [show assertLit ++ (w2 ++ '(' :: rest) = 'a' :: (("ssert").data ++ (w2 ++ '(' :: rest))
      from rfl]
    rw [List.takeWhile_cons]
    simp [isSpaceCh]
  have hpre : assertLit.isPrefixOf (assertLit ++ (w2 ++ '(' :: rest)) = true :=
    isPrefixOf_append_self assertLit _
  have hdrop : (assertLit ++ (w2 ++ '(' :: rest)).drop assertLit.length =
    w2 ++ '(' :: rest := List.drop_left assertLit _
  have hd2 : (w2 ++ '(' :: rest).dropWhile isSpaceCh = '(' :: rest := by
    rw [dropWhile_all_append isSpaceCh w2 _ h2, List.dropWhile_cons]
    simp [isSpaceCh]
  have ht2 : (w2 ++ '(' :: rest).takeWhile isSpaceCh = w2 := by
    rw [takeWhile_all_append isSpaceCh w2 _ h2, List.takeWhile_cons]
    simp [isSpaceCh]
  rw [stripAssertOpen, hd1, hdrop, hd2, ht1, ht2, if_pos hpre]
  simp

/-- Master lemma for the assertion stripper: on a qualifying line the
pass inserts the disjunct right after the opening assert(, and the
result qualifies again. -/
theorem devCheck_insertion (l : List Char) (h : isDeviceCheckLine l = true) :
    ∃ w1 w2 rest,
      l = w1 ++ (assertLit ++ (w2 ++ '(' :: rest)) ∧
      stripAssertOpen l = some (w1 ++ (assertLit ++ (w2 ++ ['('])), rest) ∧
      removeDeviceChecksLine l =
        (w1 ++ (assertLit ++ (w2 ++ ['(']))) ++ trueDisj ++ rest ∧
      removeDeviceChecksLine l = w1 ++ (assertLit ++ (w2 ++ '(' :: (trueDisj ++ rest))) ∧
      isDeviceCheckLine (removeDeviceChecksLine l) = true ∧
      (∀ c ∈ w1, isSpaceCh c = true) ∧ (∀ c ∈ w2, isSpaceCh c = true) := by
  have hor : rmatch reDevCheckA l = true ∨ rmatch reDevCheckB l = true := by
    rw [isDeviceCheckLine] at h
    exact Bool.or_eq_true _ _ ▸ h
  have key : ∀ tail : List RItem, tail = devTailA ∨ tail = devTailB →
      rmatch (wsP :: (litsOf ("assert") ++ (wsP :: (RItem.lit '(' :: tail)))) l = true →
      ∃ w1 w2 rest,
        l = w1 ++ (assertLit ++ (w2 ++ '(' :: rest)) ∧
        stripAssertOpen l = some (w1 ++ (assertLit ++ (w2 ++ ['('])), rest) ∧
        removeDeviceChecksLine l =
          (w1 ++ (assertLit ++ (w2 ++ ['(']))) ++ trueDisj ++ rest ∧
        removeDeviceChecksLine l = w1 ++ (assertLit ++ (w2 ++ '(' :: (trueDisj ++ rest))) ∧
        isDeviceCheckLine (removeDeviceChecksLine l) = true ∧
        (∀ c ∈ w1, isSpaceCh c = true) ∧ (∀ c ∈ w2, isSpaceCh c = true) := by
    intro tail htail hm
    obtain ⟨w1, w2, rest, hl, hw1, hw2, hrest⟩ := assertFront_decomp tail l hm
    have hstrip : stripAssertOpen l = some (w1 ++ (assertLit ++ (w2 ++ ['('])), rest) := by
      rw [hl]; exact stripAssertOpen_spec w1 w2 rest hw1 hw2
    have hres : removeDeviceChecksLine l =
        (w1 ++ (assertLit ++ (w2 ++ ['(']))) ++ trueDisj ++ rest := by
      rw [removeDeviceChecksLine, if_pos h, assertInsert, hstrip]
    have hres2 : removeDeviceChecksLine l =
        w1 ++ (assertLit ++ (w2 ++ '(' :: (trueDisj ++ rest))) := by
      rw [hres]; simp [List.append_assoc]
    refine ⟨w1, w2, rest, hl, hstrip, hres, hres2, ?_, hw1, hw2⟩
    -- the rewritten line still starts \s*assert\s*\( and the starred
    -- dot of the tail absorbs the inserted disjunct
    have htail2 : ∃ tr, tail = anyP :: tr := by
      cases htail with
      | inl e => exact ⟨_, by rw [e]; rfl⟩
      | inr e => exact ⟨_, by rw [e]; rfl⟩
    obtain ⟨tr, htr⟩ := htail2
    have hrest2 : rmatch tail (trueDisj ++ rest) = true := by
      rw [htr] at hrest ⊢
      exact rmatch_star_weaken _ tr trueDisj rest (fun c _ => rfl) hrest
    have hq : rmatch (wsP :: (litsOf ("assert") ++ (wsP :: (RItem.lit '(' :: tail))))
        (removeDeviceChecksLine l) = true := by
      rw [hres2]
      exact assertFront_intro tail w1 w2 (trueDisj ++ rest) hw1 hw2 hrest2
    rw [isDeviceCheckLine]
    cases htail with
    | inl e =>
      have : rmatch reDevCheckA (removeDeviceChecksLine l) = true := by
        rw [reDevCheckA, ← e]; exact hq
      rw [this]; rfl
    | inr e =>
      have : rmatch reDevCheckB (removeDeviceChecksLine l) = true := by
        rw [reDevCheckB, ← e]; exact hq
      rw [this, Bool.or_true]
  cases hor with
  | inl ha => exact key devTailA (Or.inl rfl) (by rw [← reDevCheckA]; exact ha)
  | inr hb => exact key devTailB (Or.inr rfl) (by rw [← reDevCheckB]; exact hb)

/-! ### Identity behaviour on non-qualifying lines -/

theorem replaceMountLine_id (d : Device) (l : List Char)
    (h : isMountLine l = false) : replaceMountLine d l = l := by
  rw [replaceMountLine, if_neg (by simp [h])]

theorem replaceUnmountLine_id (d : Device) (l : List Char)
    (h : isUnmountLine l = false) : replaceUnmountLine d l = l := by
  rw [replaceUnmountLine, if_neg (by simp [h])]

theorem isFormatLine_split (l : List Char) (h : isFormatLine l = false) :
    rmatch reFormat1 l = false ∧ rsearch reDelRecSystem l = false ∧
      rsearch reDelRecCache l = false ∧ rmatch reFormatSh l = false := by
  rw [isFormatLine] at h
  simp only [Bool.or_eq_false_iff] at h
  exact ⟨h.1.1.1, h.1.1.2, h.1.2, h.2⟩

theorem replaceFormatLine_id (d : Device) (l : List Char)
    (h : isFormatLine l = false) : replaceFormatLine d l = l := by
  obtain ⟨h1, h2, h3, h4⟩ := isFormatLine_split l h
  rw [replaceFormatLine, if_neg (by simp [h1]), if_neg (by simp [h2]),
    if_neg (by simp [h3]), if_neg (by simp [h4])]

theorem removeDeviceChecksLine_id (l : List Char)
    (h : isDeviceCheckLine l = false) : removeDeviceChecksLine l = l := by
  rw [removeDeviceChecksLine, if_neg (by simp [h])]

/-! ### Interaction of the format-pass patterns -/

/-- A starred class followed by a literal outside the class forces the
first character after the class run. -/
theorem star_lit_head (p : Char → Bool) (c : Char) (is : List RItem) (l : List Char)
    (hc : p c = false)
    (h : rmatch (RItem.star p :: (RItem.lit c :: is)) l = true) :
    ∃ t, l.dropWhile p = c :: t := by
  rw [rmatch_star_lit p c is l hc] at h
  obtain ⟨t, ht, _⟩ := rmatch_lit_decomp c is _ h
  exact ⟨t, ht⟩

/-- A format.sh line starts with run_program after its whitespace, so it
can never also be a format( line. -/
theorem formatSh_not_format1 (l : List Char) (h : rmatch reFormatSh l = true) :
    rmatch reFormat1 l = false := by
  obtain ⟨t, ht⟩ := star_lit_head isSpaceCh 'r' _ l (by decide) h
  cases hf : rmatch reFormat1 l
  · rfl
  · obtain ⟨t2, ht2⟩ := star_lit_head isSpaceCh 'f' _ l (by decide) hf
    rw [ht] at ht2
    injection ht2 with hch _
    exact absurd hch (by decide)

/-- A line matched by the delete_recursive "/system" pattern contains
the substring system. -/
theorem delRecSystem_contains (l : List Char)
    (h : rsearch reDelRecSystem l = true) :
    containsSub (("system").data) l = true := by
  obtain ⟨n, hn⟩ := rsearch_drop _ l h
  rw [reDelRecSystem] at hn
  obtain ⟨m, hm⟩ := rmatch_append_drop _ _ _ hn
  obtain ⟨r, hr⟩ := rmatch_lits_bare (("\"/system\"").data) _ hm
  have h2 : containsSub (("system").data) ((l.drop n).drop m) = true := by
    rw [hr, show ("\"/system\"").data =
      ("\"/").data ++ ((("system").data) ++ ("\"").data) from rfl]
    simp only [List.append_assoc]
    exact containsSub_middle (("\"/").data) (("system").data) _
  exact containsSub_of_drop _ n l (containsSub_of_drop _ m _ h2)

/-! ### The rewriters emit only template lines -/

theorem replaceMountLine_cases (d : Device) (l : List Char) :
    replaceMountLine d l = l ∨ replaceMountLine d l ∈ templateList := by
  rw [replaceMountLine]
  by_cases h1 : isMountLine l = true
  · rw [if_pos h1]
    by_cases h2 : isSystemLine d l = true
    · rw [if_pos h2]; right; simp [templateList]
    · rw [if_neg h2]
      by_cases h3 : isCacheLine d l = true
      · rw [if_pos h3]; right; simp [templateList]
      · rw [if_neg h3]
        by_cases h4 : isDataLine d l = true
        · rw [if_pos h4]; right; simp [templateList]
        · rw [if_neg h4]; left; rfl
  · rw [if_neg h1]; left; rfl

theorem replaceUnmountLine_cases (d : Device) (l : List Char) :
    replaceUnmountLine d l = l ∨ replaceUnmountLine d l ∈ templateList := by
  rw [replaceUnmountLine]
  by_cases h1 : isUnmountLine l = true
  · rw [if_pos h1]
    by_cases h2 : isSystemLine d l = true
    · rw [if_pos h2]; right; simp [templateList]
    · rw [if_neg h2]
      by_cases h3 : isCacheLine d l = true
      · rw [if_pos h3]; right; simp [templateList]
      · rw [if_neg h3]
        by_cases h4 : isDataLine d l = true
        · rw [if_pos h4]; right; simp [templateList]
        · rw [if_neg h4]; left; rfl
  · rw [if_neg h1]; left; rfl

theorem replaceFormatLine_cases (d : Device) (l : List Char) :
    replaceFormatLine d l = l ∨ replaceFormatLine d l ∈ templateList := by
  rw [replaceFormatLine]
  by_cases h1 : rmatch reFormat1 l = true
  · rw [if_pos h1]
    by_cases h2 : isSystemLine d l = true
    · rw [if_pos h2]; right; simp [templateList]
    · rw [if_neg h2]
      by_cases h3 : isCacheLine d l = true
      · rw [if_pos h3]; right; simp [templateList]
      · rw [if_neg h3]
        by_cases h4 : isDataLine d l = true
        · rw [if_pos h4]; right; simp [templateList]
        · rw [if_neg h4]; left; rfl
  · rw [if_neg h1]
    by_cases h2 : rsearch reDelRecSystem l = true
    · rw [if_pos h2]; right; simp [templateList]
    · rw [if_neg h2]
      by_cases h3 : rsearch reDelRecCache l = true
      · rw [if_pos h3]; right; simp [templateList]
      · rw [if_neg h3]
        by_cases h4 : rmatch reFormatSh l = true
        · rw [if_pos h4]; right; simp [templateList]
        · rw [if_neg h4]; left; rfl

/-- No template line qualifies under any of the three rewriters, so all
three fix it. -/
theorem templates_fixed (d : Device) (t : List Char) (ht : t ∈ templateList) :
    replaceMountLine d t = t ∧ replaceUnmountLine d t = t ∧
      replaceFormatLine d t = t := by
  have hall : templateList.all
      (fun x => !(isMountLine x) && (!(isUnmountLine x) && !(isFormatLine x))) = true := by
    decide
  have hb := List.all_eq_true.mp hall t ht
  simp only [Bool.and_eq_true, Bool.not_eq_true'] at hb
  exact ⟨replaceMountLine_id d t hb.1, replaceUnmountLine_id d t hb.2.1,
    replaceFormatLine_id d t hb.2.2⟩

/-- The composite of the three statement rewriters is idempotent per
line. -/
theorem threePassesLine_idem (d : Device) (l : List Char) :
    threePassesLine d (threePassesLine d l) = threePassesLine d l := by
  rcases replaceMountLine_cases d l with hm | hm
  · rcases replaceUnmountLine_cases d l with hu | hu
    · rcases replaceFormatLine_cases d l with hf | hf
      · have e : threePassesLine d l = l := by rw [threePassesLine, hm, hu, hf]
        rw [e]; exact e
      · have e : threePassesLine d l = replaceFormatLine d l := by
          rw [threePassesLine, hm, hu]
        obtain ⟨i1, i2, i3⟩ := templates_fixed d _ hf
        rw [e, threePassesLine, i1, i2, i3]
    · obtain ⟨i1, i2, i3⟩ := templates_fixed d _ hu
      have e : threePassesLine d l = replaceUnmountLine d l := by
        rw [threePassesLine, hm, i3]
      rw [e, threePassesLine, i1, i2, i3]
  · obtain ⟨i1, i2, i3⟩ := templates_fixed d _ hm
    have e : threePassesLine d l = replaceMountLine d l := by
      rw [threePassesLine, i2, i3]
    rw [e, threePassesLine, i1, i2, i3]

theorem threePasses_map (lines : List (List Char)) (d : Device) :
    threePasses lines d = lines.map (threePassesLine d) := by
  rw [threePasses, replaceMountLines, replaceUnmountLines, replaceFormatLines,
    List.map_map, List.map_map]
  rfl

/-! ### The claims -/

/-- Claim C1: for every qualifying mount, unmount or format line, the
partition classification checks System first, then Cache, then Data,
first match winning: a qualifying line containing both the substring
system and the substring data is rewritten with the /system path, never
the /data path. -/
theorem claim1 (d : Device) (l : List Char)
    (hs : containsSub (("system").data) l = true)
    (hd : containsSub (("data").data) l = true) :
    (isMountLine l = true → replaceMountLine d l = substPct (("/system").data) Mount) ∧
    (isUnmountLine l = true → replaceUnmountLine d l = substPct (("/system").data) Unmount) ∧
    (rmatch reFormat1 l = true → replaceFormatLine d l = substPct (("/system").data) Format) := by
  have hsys : isSystemLine d l = true := by rw [isSystemLine, hs]; rfl
  refine ⟨?_, ?_, ?_⟩ <;> intro hq
  · rw [replaceMountLine, if_pos hq, if_pos hsys]
  · rw [replaceUnmountLine, if_pos hq, if_pos hsys]
  · rw [replaceFormatLine, if_pos hq, if_pos hsys]

/-- Witness for C1 at a concrete mount line containing both system and
data. -/
theorem claim1Witness :
    replaceMountLine emptyDevice exMountLine = substPct (("/system").data) Mount :=
  (claim1 emptyDevice exMountLine (by decide) (by decide)).1 (by decide)

/-- Claim C2: on every qualifying device-check line the literal
"true" == "true" ||  is inserted immediately after the opening assert(
when and only when the device-check-removal flag is true, i.e. exactly
when the caller's deviceCheck decision is false; with the flag false
every line is returned byte-identical. -/
theorem claim2 (l : List Char) (lines : List (List Char))
    (h : isDeviceCheckLine l = true) :
    (∃ pre rest, stripAssertOpen l = some (pre, rest) ∧ l = pre ++ rest ∧
      removeDeviceChecksLine l = pre ++ trueDisj ++ rest) ∧
    gatedRemoveDeviceChecks true lines = lines ∧
    gatedRemoveDeviceChecks false lines = removeDeviceChecks lines := by
  obtain ⟨w1, w2, rest, hl, hstrip, hres, _, _, _, _⟩ := devCheck_insertion l h
  refine ⟨⟨w1 ++ (assertLit ++ (w2 ++ ['('])), rest, hstrip, ?_, hres⟩, rfl, rfl⟩
  rw [hl]
  simp [List.append_assoc]

/-- Witness for C2 at a concrete assertion line. -/
theorem claim2Witness :
    (∃ pre rest, stripAssertOpen exDevCheckLine = some (pre, rest) ∧
      exDevCheckLine = pre ++ rest ∧
      removeDeviceChecksLine exDevCheckLine = pre ++ trueDisj ++ rest) ∧
    gatedRemoveDeviceChecks true [exDevCheckLine] = [exDevCheckLine] ∧
    gatedRemoveDeviceChecks false [exDevCheckLine] =
      removeDeviceChecks [exDevCheckLine] :=
  claim2 exDevCheckLine [exDevCheckLine] (by decide)

/-- Counterexample to C3: the line delete_recursive("/system", "/cache");
contains delete_recursive( with the quoted literal "/cache", yet the
format pass rewrites it to the /system format template, not the /cache
one, because the delete_recursive "/system" rule is checked first. -/
theorem claim3Counterexample :
    rsearch reDelRecCache exDelRecBoth = true ∧
    replaceFormatLine emptyDevice exDelRecBoth ≠ substPct (("/cache").data) Format ∧
    replaceFormatLine emptyDevice exDelRecBoth = substPct (("/system").data) Format := by
  refine ⟨by decide, by decide, by decide⟩

/-- Claim C3 as amended: the format pass evaluates its rules as a
first-match priority chain — format( classification, then
delete_recursive "/system", then delete_recursive "/cache", then
format.sh.  A delete_recursive "/system" line is always rewritten to the
/system format template, independent of the device mapping; a
delete_recursive "/cache" line rewrites to the /cache template provided
the line matches neither the format( rule nor the delete_recursive
"/system" rule; a format.sh line rewrites to the /data template provided
neither delete_recursive rule matches it. -/
theorem claim3 (d : Device) (l : List Char) :
    (rsearch reDelRecSystem l = true →
      replaceFormatLine d l = substPct (("/system").data) Format) ∧
    (rsearch reDelRecCache l = true → rmatch reFormat1 l = false →
      rsearch reDelRecSystem l = false →
      replaceFormatLine d l = substPct (("/cache").data) Format) ∧
    (rmatch reFormatSh l = true → rsearch reDelRecSystem l = false →
      rsearch reDelRecCache l = false →
      replaceFormatLine d l = substPct (("/data").data) Format) := by
  refine ⟨?_, ?_, ?_⟩
  · intro h
    by_cases h1 : rmatch reFormat1 l = true
    · have hsys : isSystemLine d l = true := by
        rw [isSystemLine, delRecSystem_contains l h]; rfl
      rw [replaceFormatLine, if_pos h1, if_pos hsys]
    · rw [replaceFormatLine, if_neg h1, if_pos h]
  · intro h hf hs
    rw [replaceFormatLine, if_neg (by simp [hf]), if_neg (by simp [hs]), if_pos h]
  · intro h hs hc
    have hf : rmatch reFormat1 l = false := formatSh_not_format1 l h
    rw [replaceFormatLine, if_neg (by simp [hf]), if_neg (by simp [hs]),
      if_neg (by simp [hc]), if_pos h]

/-- Witness for the amended C3 at the three rule kinds. -/
theorem claim3Witness :
    replaceFormatLine emptyDevice exDelRecSystemLine =
      substPct (("/system").data) Format ∧
    replaceFormatLine emptyDevice exDelRecCacheLine =
      substPct (("/cache").data) Format ∧
    replaceFormatLine emptyDevice exFormatShLine =
      substPct (("/data").data) Format :=
  ⟨(claim3 emptyDevice exDelRecSystemLine).1 (by decide),
   (claim3 emptyDevice exDelRecCacheLine).2.1 (by decide) (by decide) (by decide),
   (claim3 emptyDevice exFormatShLine).2.2 (by decide) (by decide) (by decide)⟩

/-- Claim C4: a line matching none of a pass's qualifying patterns is
left byte-identical by that pass, and a qualifying mount, unmount or
format( line the classifier places in no partition is also left
unchanged. -/
theorem claim4 (d : Device) (l : List Char) :
    (isMountLine l = false → replaceMountLine d l = l) ∧
    (isUnmountLine l = false → replaceUnmountLine d l = l) ∧
    (isFormatLine l = false → replaceFormatLine d l = l) ∧
    (isDeviceCheckLine l = false → removeDeviceChecksLine l = l) ∧
    (isSystemLine d l = false → isCacheLine d l = false → isDataLine d l = false →
      replaceMountLine d l = l ∧ replaceUnmountLine d l = l ∧
      (rmatch reFormat1 l = true → replaceFormatLine d l = l)) := by
  refine ⟨replaceMountLine_id d l, replaceUnmountLine_id d l,
    replaceFormatLine_id d l, removeDeviceChecksLine_id l, ?_⟩
  intro h1 h2 h3
  refine ⟨?_, ?_, ?_⟩
  · rw [replaceMountLine]
    by_cases hq : isMountLine l = true
    · rw [if_pos hq, if_neg (by simp [h1]), if_neg (by simp [h2]),
        if_neg (by simp [h3])]
    · rw [if_neg hq]
  · rw [replaceUnmountLine]
    by_cases hq : isUnmountLine l = true
    · rw [if_pos hq, if_neg (by simp [h1]), if_neg (by simp [h2]),
        if_neg (by simp [h3])]
    · rw [if_neg hq]
  · intro hq
    rw [replaceFormatLine, if_pos hq, if_neg (by simp [h1]), if_neg (by simp [h2]),
      if_neg (by simp [h3])]

/-- Witness for C4: a non-qualifying line under all passes, and
qualifying mount and unmount lines classified into no partition. -/
theorem claim4Witness :
    replaceMountLine emptyDevice exPlainLine = exPlainLine ∧
    replaceUnmountLine emptyDevice exPlainLine = exPlainLine ∧
    replaceFormatLine emptyDevice exPlainLine = exPlainLine ∧
    removeDeviceChecksLine exPlainLine = exPlainLine ∧
    replaceMountLine emptyDevice exMountEfsLine = exMountEfsLine ∧
    replaceUnmountLine emptyDevice exUnmountEfsLine = exUnmountEfsLine :=
  ⟨(claim4 emptyDevice exPlainLine).1 (by decide),
   (claim4 emptyDevice exPlainLine).2.1 (by decide),
   (claim4 emptyDevice exPlainLine).2.2.1 (by decide),
   (claim4 emptyDevice exPlainLine).2.2.2.1 (by decide),
   ((claim4 emptyDevice exMountEfsLine).2.2.2.2 (by decide) (by decide) (by decide)).1,
   ((claim4 emptyDevice exUnmountEfsLine).2.2.2.2 (by decide) (by decide)
     (by decide)).2.1⟩

/-- Claim C5: when no line of the split script qualifies under any pass,
the complete rewrite — split, all passes, rejoin — returns the input
byte-identical, with the same newline separator. -/
theorem claim5 (d : Device) (dc : Bool) (content : List Char)
    (h : ∀ l ∈ splitNl content, isMountLine l = false ∧ isUnmountLine l = false ∧
      isFormatLine l = false ∧ isDeviceCheckLine l = false) :
    patchUpdaterScript content d dc = content := by
  have h1 : replaceMountLines (splitNl content) d = splitNl content := by
    rw [replaceMountLines]
    exact mapSelf _ _ (fun l hl => replaceMountLine_id d l (h l hl).1)
  have h2 : replaceUnmountLines (splitNl content) d = splitNl content := by
    rw [replaceUnmountLines]
    exact mapSelf _ _ (fun l hl => replaceUnmountLine_id d l (h l hl).2.1)
  have h3 : replaceFormatLines (splitNl content) d = splitNl content := by
    rw [replaceFormatLines]
    exact mapSelf _ _ (fun l hl => replaceFormatLine_id d l (h l hl).2.2.1)
  have h4 : removeDeviceChecks (splitNl content) = splitNl content := by
    rw [removeDeviceChecks]
    exact mapSelf _ _ (fun l hl => removeDeviceChecksLine_id l (h l hl).2.2.2)
  rw [patchUpdaterScript, patchLines, h1, h2, h3, gatedRemoveDeviceChecks]
  cases dc with
  | false => rw [if_pos (by rfl), h4, joinNl_splitNl]
  | true => rw [if_neg (by simp), joinNl_splitNl]

/-- Witness for C5 at a concrete two-line script. -/
theorem claim5Witness : patchUpdaterScript exScript emptyDevice false = exScript :=
  claim5 emptyDevice false exScript (by decide)

/-- Claim C6: the assertion stripper is not idempotent — on every
qualifying line a second application inserts the disjunct a second time
right after assert(, so applying it twice differs from applying it
once. -/
theorem claim6 (l : List Char) (h : isDeviceCheckLine l = true) :
    ∃ pre rest, stripAssertOpen l = some (pre, rest) ∧
      removeDeviceChecksLine l = pre ++ trueDisj ++ rest ∧
      removeDeviceChecksLine (removeDeviceChecksLine l) =
        pre ++ trueDisj ++ (trueDisj ++ rest) ∧
      removeDeviceChecksLine (removeDeviceChecksLine l) ≠ removeDeviceChecksLine l := by
  obtain ⟨w1, w2, rest, hl, hstrip, hres, hres2, hq, hw1, hw2⟩ := devCheck_insertion l h
  have hstrip2 : stripAssertOpen (removeDeviceChecksLine l) =
      some (w1 ++ (assertLit ++ (w2 ++ ['('])), trueDisj ++ rest) := by
    rw [hres2]
    exact stripAssertOpen_spec w1 w2 (trueDisj ++ rest) hw1 hw2
  have hres3 : removeDeviceChecksLine (removeDeviceChecksLine l) =
      (w1 ++ (assertLit ++ (w2 ++ ['(']))) ++ trueDisj ++ (trueDisj ++ rest) := by
    rw [removeDeviceChecksLine, if_pos hq, assertInsert, hstrip2]
  refine ⟨w1 ++ (assertLit ++ (w2 ++ ['('])), rest, hstrip, hres, hres3, ?_⟩
  intro heq
  rw [hres3, hres] at heq
  have hlen := congrArg List.length heq
  simp only [List.length_append] at hlen
  have hdisj : trueDisj.length = 20 := by decide
  omega

/-- Witness for C6 at a concrete assertion line. -/
theorem claim6Witness :
    ∃ pre rest, stripAssertOpen exDevCheckLine = some (pre, rest) ∧
      removeDeviceChecksLine exDevCheckLine = pre ++ trueDisj ++ rest ∧
      removeDeviceChecksLine (removeDeviceChecksLine exDevCheckLine) =
        pre ++ trueDisj ++ (trueDisj ++ rest) ∧
      removeDeviceChecksLine (removeDeviceChecksLine exDevCheckLine) ≠
        removeDeviceChecksLine exDevCheckLine :=
  claim6 exDevCheckLine (by decide)

/-- Counterexample to C7: the claim omits the device; for a device whose
raw system partition path is the string busybox, the classifier marks
the example unmount line as System and the pass emits the /system
unmount template instead of the /cache one. -/
theorem claim7Counterexample :
    replaceUnmountLine busyboxDevice exUmountCacheLine ≠
      substPct (("/cache").data) Unmount ∧
    replaceUnmountLine busyboxDevice exUmountCacheLine =
      substPct (("/system").data) Unmount := by
  refine ⟨by decide, by decide⟩

/-- Claim C7 as amended: for every device whose system partition path is
empty or does not occur in the line, the input line
run_program("/sbin/busybox", "umount", "/cache"); passes the mount pass
unchanged and the unmount pass replaces it with exactly the Cache
unmount-helper invocation. -/
theorem claim7 (d : Device)
    (h : d.pSystem = [] ∨ containsSub d.pSystem exUmountCacheLine = false) :
    replaceMountLine d exUmountCacheLine = exUmountCacheLine ∧
    replaceUnmountLine d exUmountCacheLine = substPct (("/cache").data) Unmount := by
  constructor
  · exact replaceMountLine_id d _ (by decide)
  · have hsys : isSystemLine d exUmountCacheLine = false := by
      rw [isSystemLine]
      rw [show containsSub (("system").data) exUmountCacheLine = false by decide]
      rw [Bool.false_or]
      cases h with
      | inl e => rw [e]; rfl
      | inr e => rw [e, Bool.and_false]
    have hcache : isCacheLine d exUmountCacheLine = true := by
      rw [isCacheLine]
      rw [show containsSub (("cache").data) exUmountCacheLine = true by decide]
      rfl
    rw [replaceUnmountLine,
      if_pos (show isUnmountLine exUmountCacheLine = true by decide),
      if_neg (by simp [hsys]), if_pos hcache]

/-- Witness for the amended C7 with the unmapped device. -/
theorem claim7Witness :
    replaceMountLine emptyDevice exUmountCacheLine = exUmountCacheLine ∧
    replaceUnmountLine emptyDevice exUmountCacheLine =
      substPct (("/cache").data) Unmount :=
  claim7 emptyDevice (Or.inl rfl)

/-- Claim C8: every pass maps lines one to one and in place, so every
pass and the whole pipeline preserve the number and order of lines. -/
theorem claim8 (d : Device) (dc : Bool) (lines : List (List Char)) (i : Nat) :
    (replaceMountLines lines d).length = lines.length ∧
    (replaceUnmountLines lines d).length = lines.length ∧
    (replaceFormatLines lines d).length = lines.length ∧
    (removeDeviceChecks lines).length = lines.length ∧
    (patchLines lines d dc).length = lines.length ∧
    (replaceMountLines lines d)[i]? = Option.map (replaceMountLine d) lines[i]? ∧
    (replaceUnmountLines lines d)[i]? = Option.map (replaceUnmountLine d) lines[i]? ∧
    (replaceFormatLines lines d)[i]? = Option.map (replaceFormatLine d) lines[i]? ∧
    (removeDeviceChecks lines)[i]? = Option.map removeDeviceChecksLine lines[i]? := by
  refine ⟨?_, ?_, ?_, ?_, ?_, ?_, ?_, ?_, ?_⟩
  · rw [replaceMountLines, List.length_map]
  · rw [replaceUnmountLines, List.length_map]
  · rw [replaceFormatLines, List.length_map]
  · rw [removeDeviceChecks, List.length_map]
  · rw [patchLines, gatedRemoveDeviceChecks]
    cases dc with
    | false =>
        rw [if_pos (by rfl)]
        simp [removeDeviceChecks, replaceFormatLines, replaceUnmountLines,
          replaceMountLines]
    | true =>
        rw [if_neg (by simp)]
        simp [replaceFormatLines, replaceUnmountLines, replaceMountLines]
  · rw [replaceMountLines, List.getElem?_map]
  · rw [replaceUnmountLines, List.getElem?_map]
  · rw [replaceFormatLines, List.getElem?_map]
  · rw [removeDeviceChecks, List.getElem?_map]

/-- Claim C9: error() always returns the default no-error PatcherError
value, for every instance state. -/
theorem claim9 (s : StandardPatcherImpl) :
    standardPatcherError s = defaultPatcherError ∧
    (standardPatcherError s).hasError = false :=
  ⟨rfl, rfl⟩

/-- Claim C10: every replacement line the three statement rewriters emit
matches no qualifying pattern of any of the three passes, and therefore
running the mount, unmount and format passes a second time over an
already-rewritten script changes nothing. -/
theorem claim10 (d : Device) (lines : List (List Char)) :
    templateList.all
      (fun t => !(isMountLine t) && (!(isUnmountLine t) && !(isFormatLine t))) = true ∧
    threePasses (threePasses lines d) d = threePasses lines d := by
  constructor
  · decide
  · rw [threePasses_map, threePasses_map, List.map_map]
    exact mapCongr _ _ lines (fun l _ => threePassesLine_idem d l)

end StandardPatcher
